import Mathlib

/-
Verification of the National_Levee_Database notebooks.

The repository has two notebooks:
  * 1_NLD_Bulk_Download.ipynb — bulk-downloads ArcGIS FeatureServer layers
    to local shapefiles via GDAL/OGR (`featurelayer2shapefile_ogr`, `row_func`).
  * 2_NLD_Clip_and_Vis.ipynb — clips a downloaded layer against a boundary
    polygon in two passes (`sindex.query` bounding-box pre-filter, then
    `.within` exact containment) and visualizes the result.

This file shallowly embeds the logic those notebooks execute.  The pagination
loop itself runs inside OGR (the notebook only builds the query URL carrying
`resultRecordCount=1000` and `orderByFields=OBJECTID ASC`); the paged fetcher
is therefore modelled from the specification of the paged fetch contract.
The geometry predicates used by the clip (`intersects` of bounding boxes,
`within`) are modelled by their documented DE-9IM semantics on the subclass of
axis-aligned rectangle geometries with integer coordinates, which is closed
under every predicate the notebooks use.
-/

namespace NLD

/-! ## Paged fetcher (notebook 1)

Modelled from the spec: the paged fetch-and-merge loop that GDAL/OGR performs
when given a query URL with `resultRecordCount` set.  The repository source
only constructs the query URL and calls `ogr.Open` / `CopyLayer`; the
page-by-page retrieval and its error propagation are the library's, so they
are embedded here following the spec's §4.1 contract: request pages of
`page_size` records at offsets 0, page_size, 2·page_size, …; a page shorter
than `page_size` is the last-page sentinel; a network failure on a page fails
the whole fetch with that page's offset; a malformed page fails with a parse
error. -/

/-- A page-level failure reported by the remote collection endpoint. -/
inductive PageErr : Type where
  | netFail : PageErr
  | malformed : PageErr
deriving DecidableEq, Repr

/-- The error taxonomy of the fetcher: `fetchError off` carries the offset of
the failing page so a caller can resume from it; `parseError` reports a
malformed page payload. -/
inductive FetchErr : Type where
  | fetchError : Nat → FetchErr
  | parseError : FetchErr
deriving DecidableEq, Repr

/-- Modelled from the spec: one round of the paged fetch loop, with `fuel` as
the standard termination device (`none` marks fuel exhaustion, i.e. an
endpoint serving full pages forever).  `remote off` is the page the endpoint
returns at offset `off`. -/
def fetchGo {α : Type} (remote : Nat → Except PageErr (List α)) (ps : Nat) :
    Nat → Nat → Option (Except FetchErr (List α))
  | 0, _ => none
  | fuel + 1, off =>
    match remote off with
    | .error .netFail => some (.error (.fetchError off))
    | .error .malformed => some (.error .parseError)
    | .ok page =>
      if page.length < ps then
        some (.ok page)
      else
        match fetchGo remote ps fuel (off + ps) with
        | none => none
        | some (.error e) => some (.error e)
        | some (.ok rest) => some (.ok (page ++ rest))

/-- Modelled from the spec: a static (unchanging, never failing) remote
collection `coll`, served in identifier order, answering the paged query at
offset `off` with the next `ps` records. -/
def staticRemote {α : Type} (coll : List α) (ps : Nat) (off : Nat) :
    Except PageErr (List α) :=
  .ok ((coll.drop off).take ps)

/-- Modelled from the spec: the complete paged fetch of a static remote
collection, starting at offset 0 with enough fuel for the whole collection. -/
def fetch_all {α : Type} (ps : Nat) (coll : List α) :
    Option (Except FetchErr (List α)) :=
  fetchGo (staticRemote coll ps) ps (coll.length + 1) 0

/-! ## The query URL built by `featurelayer2shapefile_ogr` (notebook 1)

Source: `query_url = '.../query/?where=1+%3D+1&outfields=*&f=json&resultRecordCount=1000&orderByFields=OBJECTID+ASC'.format(featurelayer_url)`. -/

/-- The query URL `featurelayer2shapefile_ogr` constructs from the layer
endpoint; a direct transcription of the notebook's format string. -/
def query_url (featurelayer_url : String) : String :=
  featurelayer_url ++
    "/query/?where=1+%3D+1&outfields=*&f=json&resultRecordCount=1000&orderByFields=OBJECTID+ASC"

/-- Split a character list at every occurrence of `sep` (occurrences deleted;
an empty input yields one empty piece, like Python's `str.split(sep)`). -/
def splitOnChar (sep : Char) : List Char → List (List Char)
  | [] => [[]]
  | c :: cs =>
    let r := splitOnChar sep cs
    if c == sep then [] :: r
    else
      match r with
      | [] => [[c]]
      | h :: t => (c :: h) :: t

/-- Split one `key=value` query component at its first `=`. -/
def splitParam (piece : List Char) : List Char × List Char :=
  ((piece.takeWhile (fun c => c != '=')),
   ((piece.dropWhile (fun c => c != '=')).drop 1))

/-- The key/value pairs of the query component of a URL: everything after the
first `?`, split on `&`, each piece split at its first `=`. -/
def queryParams (url : String) : List (List Char × List Char) :=
  (splitOnChar '&' ((url.data.dropWhile (fun c => c != '?')).drop 1)).map splitParam

/-- URL-decoding of the two escapes the notebook's query string uses:
`+` stands for a space and `%3D` for `=`. -/
def decodeQuery : List Char → List Char
  | [] => []
  | '%' :: '3' :: 'D' :: rest => '=' :: decodeQuery rest
  | '+' :: rest => ' ' :: decodeQuery rest
  | c :: rest => c :: decodeQuery rest

/-- Strip leading and trailing spaces from a character list. -/
def trimSpaces (s : List Char) : List Char :=
  ((s.dropWhile (fun c => c == ' ')).reverse.dropWhile (fun c => c == ' ')).reverse

/-- Whether a (decoded) SQL where clause is a tautological equality `x = x`
of one nonempty literal against itself, hence true of every record. -/
def isTautologyEq (s : List Char) : Bool :=
  match splitOnChar '=' s with
  | [a, b] => trimSpaces a == trimSpaces b && trimSpaces a != []
  | _ => false

/-! ## Spatial subsetter (notebook 2)

Source cells:
  `boundary_geom = boundary_gdf.iloc[0].geometry`
  `clip_possible_gdf = features_gdf.iloc[features_gdf.sindex.query(boundary_geom)]`
  `clip_exact_gdf = clip_possible_gdf[clip_possible_gdf.geometry.within(boundary_geom)]`

Geometries are embedded as axis-aligned rectangles with integer coordinates,
a subclass closed under every predicate the notebook uses; the predicates
follow the DE-9IM semantics of the underlying library: `intersects` is
nonempty intersection of the closed point sets, `within a b` is `a ⊆ b`
together with a nonempty intersection of interiors. -/

/-- A closed axis-aligned rectangle; a point when `xmin = xmax ∧ ymin = ymax`,
degenerate (zero area) whenever `xmax ≤ xmin ∨ ymax ≤ ymin`. -/
structure Rect : Type where
  xmin : Int
  ymin : Int
  xmax : Int
  ymax : Int
deriving DecidableEq, Repr

/-- The bounding box of a rectangle geometry is the rectangle itself. -/
def Rect.bbox (a : Rect) : Rect := a

/-- Closed point sets intersect: the coordinate intervals overlap. -/
def Rect.intersects (a b : Rect) : Bool :=
  a.xmin ≤ b.xmax && b.xmin ≤ a.xmax && a.ymin ≤ b.ymax && b.ymin ≤ a.ymax

/-- `a` is contained in `b` as closed point sets. -/
def Rect.subsetOf (a b : Rect) : Bool :=
  b.xmin ≤ a.xmin && a.xmax ≤ b.xmax && b.ymin ≤ a.ymin && a.ymax ≤ b.ymax

/-- The topological interiors of `a` and `b` intersect: the open coordinate
intervals overlap. -/
def Rect.interiorsIntersect (a b : Rect) : Bool :=
  max a.xmin b.xmin < min a.xmax b.xmax && max a.ymin b.ymin < min a.ymax b.ymax

/-- DE-9IM `within`: `a` lies inside `b` (closed containment) and the two
interiors intersect — boundary-only contact does not qualify. -/
def Rect.within (a b : Rect) : Bool :=
  a.subsetOf b && a.interiorsIntersect b

/-- DE-9IM `touches`: the closed sets intersect but only at boundary points
(the interiors are disjoint). -/
def Rect.touches (a b : Rect) : Bool :=
  a.intersects b && !(a.interiorsIntersect b)

/-- The rectangle has zero area (degenerate in at least one axis). -/
def Rect.zeroArea (a : Rect) : Bool :=
  a.xmax ≤ a.xmin || a.ymax ≤ a.ymin

/-- One row of the features GeoDataFrame: a positional identity plus a
geometry. -/
structure GeoFeature : Type where
  fid : Nat
  geom : Rect
deriving DecidableEq, Repr

/-- The bounding box of a feature's geometry. -/
def GeoFeature.bbox (f : GeoFeature) : Rect := f.geom.bbox

/-- `features_gdf.sindex.query(boundary_geom)`: the spatial index returns the
positional indices of the features whose bounding box intersects the bounding
box of the query geometry, in ascending positional order. -/
def sindex_query (features_gdf : List GeoFeature) (g : Rect) : List Nat :=
  (List.range features_gdf.length).filter fun i =>
    ((features_gdf.get? i).map fun f => f.bbox.intersects g.bbox).getD false

/-- `df.iloc[idxs]`: select the rows at the given positional indices, in the
order the index list gives them. -/
def iloc (features_gdf : List GeoFeature) (idxs : List Nat) : List GeoFeature :=
  idxs.filterMap features_gdf.get?

/-- Pass 1 (coarse): `features_gdf.iloc[features_gdf.sindex.query(boundary_geom)]`. -/
def clip_possible_gdf (features_gdf : List GeoFeature) (boundary_geom : Rect) :
    List GeoFeature :=
  iloc features_gdf (sindex_query features_gdf boundary_geom)

/-- Pass 2 (exact): `clip_possible_gdf[clip_possible_gdf.geometry.within(boundary_geom)]`. -/
def clip_exact_gdf (features_gdf : List GeoFeature) (boundary_geom : Rect) :
    List GeoFeature :=
  (clip_possible_gdf features_gdf boundary_geom).filter fun f =>
    f.geom.within boundary_geom

/-- The failure the spec names `InvalidBoundaryError`: the boundary source has
no geometry to clip with (in the notebook, `boundary_gdf.iloc[0]` fails on an
empty frame). -/
inductive ClipError : Type where
  | invalidBoundary : ClipError
deriving DecidableEq, Repr

/-- `boundary_gdf.iloc[0].geometry`: the first boundary geometry, failing when
the boundary frame is empty. -/
def boundary_geom_of (boundary_gdf : List Rect) : Except ClipError Rect :=
  match boundary_gdf with
  | [] => .error .invalidBoundary
  | g :: _ => .ok g

/-- The whole clip: extract the first boundary geometry, then the two passes. -/
def clip (features_gdf : List GeoFeature) (boundary_gdf : List Rect) :
    Except ClipError (List GeoFeature) :=
  (boundary_geom_of boundary_gdf).map (clip_exact_gdf features_gdf)

/-! ## Filename sanitization and path construction (notebook 1)

Source (`row_func`):
  `name_safe = secure_filename(name)`
  `shp_path = os.path.join(download_folder, name_safe + ".shp")` (via format)
  `featurelayer_url = url_feature_server + "/" + id + "/"` (via format)

`secure_filename` is werkzeug's, embedded by its documented algorithm on
ASCII input and a POSIX separator: path separators become spaces, whitespace
runs are joined with `_`, every character outside `[A-Za-z0-9_.-]` is removed,
and leading/trailing `.` and `_` are stripped. -/

/-- The characters `secure_filename` keeps: ASCII alphanumerics, underscore,
dot and dash. -/
def isSafeChar (c : Char) : Bool :=
  (('a' ≤ c && c ≤ 'z') || ('A' ≤ c && c ≤ 'Z') || ('0' ≤ c && c ≤ '9')
    || c == '_' || c == '.' || c == '-')

/-- A character `.` or `_`, stripped from the ends of the sanitized name. -/
def isStripChar (c : Char) : Bool :=
  c == '.' || c == '_'

/-- The join step of `secure_filename`: path separators become spaces, the
nonempty space-separated pieces are joined with `_`. -/
def joinedName (name : String) : List Char :=
  (((splitOnChar ' ' (name.data.map fun c => if c == '/' then ' ' else c)).filter
      fun p => p != []).intersperse ['_']).flatten

/-- werkzeug's `secure_filename` on ASCII input: separators to spaces, split
on spaces and join with `_`, drop unsafe characters, strip `.`/`_` ends. -/
def secure_filename (name : String) : String :=
  String.mk (((((joinedName name).filter isSafeChar).dropWhile
    isStripChar).reverse.dropWhile isStripChar).reverse)

/-- `os.path.join(a, b)` for POSIX paths: an absolute second segment replaces
the first, a trailing separator on the first is not doubled, otherwise the
segments are joined with `/`. -/
def os_path_join (a b : String) : String :=
  if b.data.head? = some '/' then b
  else if a.data.getLast? = some '/' then a ++ b
  else a ++ "/" ++ b

/-! ## The orchestration loop `row_func` (notebook 1)

Source:
  `if id_list is not None and type(id_list) is list:`
  `    if int(id) not in id_list: return`
  then sanitize the name, build the path and the layer URL, and call
  `featurelayer2shapefile_ogr(featurelayer_url, shp_path)`. -/

/-- The Python value held by the ambient `id_list`: `None`, a list of ids, or
any non-list value (e.g. the commented-out `range(...)`), which the guard
`type(id_list) is list` treats like `None`. -/
inductive PyIdList : Type where
  | pynone : PyIdList
  | pylist : List Int → PyIdList
  | pyother : PyIdList
deriving DecidableEq, Repr

/-- One row of the layers dataframe: the layer's name and numeric id. -/
structure LayerRow : Type where
  name : String
  id : Int
deriving DecidableEq, Repr

/-- The one side effect a non-skipped row produces: a fetch of `url` persisted
at `path`. -/
structure DownloadAction : Type where
  url : String
  path : String
deriving DecidableEq, Repr

/-- The layer endpoint `row_func` builds: `url_feature_server + "/" + id + "/"`. -/
def featurelayer_url_of (url_feature_server : String) (id : Int) : String :=
  url_feature_server ++ "/" ++ toString id ++ "/"

/-- The shapefile path `row_func` builds from the sanitized layer name. -/
def shp_path_of (download_folder : String) (name : String) : String :=
  os_path_join download_folder (secure_filename name ++ ".shp")

/-- `row_func` applied to one row: `none` when the allow-list guard returns
early (no fetch, no write), otherwise the download it triggers. -/
def row_func (id_list : PyIdList) (download_folder url_feature_server : String)
    (row : LayerRow) : Option DownloadAction :=
  match id_list with
  | .pylist l =>
    if row.id ∈ l then
      some ⟨featurelayer_url_of url_feature_server row.id,
            shp_path_of download_folder row.name⟩
    else
      none
  | _ =>
    some ⟨featurelayer_url_of url_feature_server row.id,
          shp_path_of download_folder row.name⟩

/-! ## Shapefile persistence in `featurelayer2shapefile_ogr` (notebook 1)

Source:
  `if os.path.exists(shapefile_path): driver_out.DeleteDataSource(shapefile_path)`
  `ds_out = driver_out.CreateDataSource(shapefile_path)`
  `layer_out = ds_out.CopyLayer(layer, "layer")`

The filesystem is a map from paths to the feature collection stored there. -/

/-- The local filesystem: the shapefile bundle (if any) stored at each path. -/
def FileSys : Type := String → Option (List GeoFeature)

/-- Point update of the filesystem. -/
def fsUpdate (fs : FileSys) (path : String) (v : Option (List GeoFeature)) :
    FileSys :=
  fun q => if q = path then v else fs q

/-- `DeleteDataSource` guarded by `os.path.exists`: remove the shapefile when
one is present, leave the filesystem unchanged otherwise. -/
def deleteIfExists (fs : FileSys) (path : String) : FileSys :=
  if (fs path).isSome then fsUpdate fs path none else fs

/-- `CreateDataSource` followed by `CopyLayer`: the fetched collection is
written at the path. -/
def createAndCopy (fs : FileSys) (path : String) (fetched : List GeoFeature) :
    FileSys :=
  fsUpdate fs path (some fetched)

/-- The persistence steps of `featurelayer2shapefile_ogr`, in source order:
delete an existing shapefile, then create the data source and copy the
fetched layer into it. -/
def featurelayer2shapefile (fs : FileSys) (path : String)
    (fetched : List GeoFeature) : FileSys :=
  createAndCopy (deleteIfExists fs path) path fetched

/-! ## Demonstration inputs used by the witness theorems -/

/-- A boundary rectangle used by concrete witnesses. -/
def demoBoundary : Rect := ⟨0, 0, 10, 10⟩

/-- A feature strictly inside `demoBoundary`. -/
def demoInside : GeoFeature := ⟨0, ⟨1, 1, 2, 2⟩⟩

/-- A feature sharing only the edge `x = 10` with `demoBoundary`. -/
def demoTouching : GeoFeature := ⟨1, ⟨10, 3, 12, 5⟩⟩

/-- A feature disjoint from `demoBoundary`. -/
def demoFar : GeoFeature := ⟨2, ⟨20, 20, 25, 25⟩⟩

/-- The feature list used by concrete witnesses. -/
def demoFeatures : List GeoFeature := [demoInside, demoTouching, demoFar]

/-- A static sorted five-record collection used by the fetch witnesses. -/
def demoRecs : List GeoFeature :=
  [⟨1, ⟨0, 0, 1, 1⟩⟩, ⟨2, ⟨1, 0, 2, 1⟩⟩, ⟨3, ⟨2, 0, 3, 1⟩⟩,
   ⟨4, ⟨3, 0, 4, 1⟩⟩, ⟨5, ⟨4, 0, 5, 1⟩⟩]

/-- A paged endpoint that serves one full page at offset 0, then fails with a
network error at offset 2 and a malformed payload everywhere else. -/
def demoRemote : Nat → Except PageErr (List Nat) := fun off =>
  if off = 0 then .ok [1, 2] else if off = 2 then .error .netFail
  else .error .malformed

/-- A paged endpoint that always answers with the same short page. -/
def demoRemoteOk : Nat → Except PageErr (List Nat) := fun _ => .ok [7]

/-- A demonstration filesystem with a stale shapefile at `old.shp`. -/
def demoFS : FileSys := fun p => if p = "old.shp" then some [demoFar] else none

end NLD

namespace NLD

/-! ## Helper lemmas -/

/-- Selecting by the filtered index range is the same as filtering the rows
directly: `iloc` after an index query is a stable filter. -/
theorem filterMap_get_range_filter {α : Type} (F : List α) (p : α → Bool) :
    ((List.range F.length).filter fun i =>
        ((F.get? i).map p).getD false).filterMap F.get? = F.filter p := by
  induction F with
  | nil => rfl
  | cons f F ih =>
    rw [List.length_cons, List.range_succ_eq_map, List.filter_cons]
    have hq0 : (((f :: F).get? 0).map p).getD false = p f := rfl
    rw [List.filter_map]
    have hcomp : ((fun i => (((f :: F).get? i).map p).getD false) ∘ Nat.succ) =
        (fun i => ((F.get? i).map p).getD false) := rfl
    rw [hcomp, hq0]
    by_cases hp : p f = true
    · rw [if_pos hp]
      have hcons : ((0 : Nat) :: ((List.range F.length).filter fun i =>
          ((F.get? i).map p).getD false).map Nat.succ).filterMap (f :: F).get? =
          f :: (((List.range F.length).filter fun i =>
          ((F.get? i).map p).getD false).map Nat.succ).filterMap (f :: F).get? := rfl
      rw [hcons, List.filterMap_map]
      have hget : ((f :: F).get? ∘ Nat.succ) = F.get? := rfl
      rw [hget, ih, List.filter_cons, if_pos hp]
    · rw [if_neg hp, List.filterMap_map]
      have hget : ((f :: F).get? ∘ Nat.succ) = F.get? := rfl
      rw [hget, ih, List.filter_cons, if_neg hp]

/-- Pass 1 is exactly the bounding-box intersection filter, in input order. -/
theorem clip_possible_eq_filter (F : List GeoFeature) (g : Rect) :
    clip_possible_gdf F g = F.filter fun f => f.bbox.intersects g.bbox := by
  unfold clip_possible_gdf iloc sindex_query
  exact filterMap_get_range_filter F fun f => f.bbox.intersects g.bbox

/-- No rectangle's interior meets the interior of a zero-area rectangle. -/
theorem interiorsIntersect_eq_false_of_zeroArea (a g : Rect)
    (hz : g.zeroArea = true) : a.interiorsIntersect g = false := by
  simp only [Rect.zeroArea, Bool.or_eq_true, decide_eq_true_eq] at hz
  simp only [Rect.interiorsIntersect, Bool.and_eq_false_iff, decide_eq_false_iff_not,
    not_lt]
  rcases hz with h | h
  · left
    omega
  · right
    omega

/-! ## Claim theorems -/

/-- C2: for every feature collection `F` and boundary polygon `g`,
`clip(F, g)` is a subset of `F`; every feature of the result survived the
Pass-1 spatial-index query (its bounding box intersects the boundary's
bounding box) and passed the Pass-2 exact containment test (its geometry is
within the boundary). -/
theorem c2_clip_subset_two_passes (F : List GeoFeature) (g : Rect)
    (f : GeoFeature) (hf : f ∈ clip_exact_gdf F g) :
    f ∈ F ∧ f ∈ clip_possible_gdf F g ∧
      f.bbox.intersects g.bbox = true ∧ f.geom.within g = true := by
  simp only [clip_exact_gdf] at hf
  have hposs : f ∈ clip_possible_gdf F g := (List.mem_filter.mp hf).1
  have hwithin : f.geom.within g = true := (List.mem_filter.mp hf).2
  have hfilter := clip_possible_eq_filter F g
  rw [hfilter] at hposs
  exact ⟨(List.mem_filter.mp hposs).1, hfilter ▸ hposs,
    (List.mem_filter.mp hposs).2, hwithin⟩

/-- Witness for C2: the strictly interior demo feature is in the clip of the
demo collection, and the theorem yields the four guarantees for it. -/
theorem c2_clip_subset_two_passes_witness :
    demoInside ∈ clip_exact_gdf demoFeatures demoBoundary ∧
      (demoInside ∈ demoFeatures ∧
        demoInside ∈ clip_possible_gdf demoFeatures demoBoundary ∧
        demoInside.bbox.intersects demoBoundary.bbox = true ∧
        demoInside.geom.within demoBoundary = true) :=
  ⟨by decide, c2_clip_subset_two_passes demoFeatures demoBoundary demoInside (by decide)⟩

/-- C3: a feature whose geometry only touches the boundary polygon (their
closed sets meet but their interiors do not) is excluded from the clip: the
Pass-2 test is containment, not intersection. -/
theorem c3_touching_feature_excluded (F : List GeoFeature) (g : Rect)
    (f : GeoFeature) (_hmem : f ∈ F) (ht : f.geom.touches g = true) :
    f ∉ clip_exact_gdf F g := by
  intro hf
  simp only [clip_exact_gdf] at hf
  have hw : f.geom.within g = true := (List.mem_filter.mp hf).2
  simp only [Rect.touches, Bool.and_eq_true, Bool.not_eq_true'] at ht
  simp only [Rect.within, Bool.and_eq_true] at hw
  rw [ht.2] at hw
  exact absurd hw.2 Bool.false_ne_true

/-- Witness for C3: the demo feature sharing only the edge `x = 10` with the
demo boundary touches it and is excluded from the clip. -/
theorem c3_touching_feature_excluded_witness :
    demoTouching ∈ demoFeatures ∧
      demoTouching.geom.touches demoBoundary = true ∧
      demoTouching ∉ clip_exact_gdf demoFeatures demoBoundary :=
  ⟨by decide, by decide,
    c3_touching_feature_excluded demoFeatures demoBoundary demoTouching
      (by decide) (by decide)⟩

/-- C4: the two-pass clip is a stable filter of the input collection: its
result is a sublist of `F`, so surviving features keep their relative input
order and nothing is re-sorted. -/
theorem c4_clip_stable_filter (F : List GeoFeature) (g : Rect) :
    List.Sublist (clip_exact_gdf F g) F := by
  rw [clip_exact_gdf, clip_possible_eq_filter]
  exact (List.filter_sublist _).trans (List.filter_sublist F)

/-- C5: clipping with a zero-area first boundary geometry returns an empty
collection without an error, while a boundary source with no geometry at all
fails with `invalidBoundary`. -/
theorem c5_zero_area_empty_invalid_boundary_error :
    (∀ (F : List GeoFeature) (g : Rect) (rest : List Rect), g.zeroArea = true →
        clip F (g :: rest) = .ok []) ∧
    (∀ F : List GeoFeature, clip F [] = .error .invalidBoundary) := by
  constructor
  · intro F g rest hz
    have hempty : clip_exact_gdf F g = [] := by
      apply List.filter_eq_nil_iff.mpr
      intro f hf
      simp only [Rect.within, Bool.and_eq_true]
      rintro ⟨-, hint⟩
      rw [interiorsIntersect_eq_false_of_zeroArea f.geom g hz] at hint
      exact absurd hint Bool.false_ne_true
    simp only [clip, boundary_geom_of, Except.map, hempty]
  · intro F
    rfl

/-- Witness for C5: a degenerate boundary rectangle has zero area and clips
the demo collection to the empty list, and the empty boundary list errors. -/
theorem c5_zero_area_empty_invalid_boundary_error_witness :
    (Rect.zeroArea ⟨3, 3, 3, 9⟩ = true ∧
      clip demoFeatures [⟨3, 3, 3, 9⟩] = .ok []) ∧
    clip demoFeatures [] = .error .invalidBoundary :=
  ⟨⟨by decide,
      c5_zero_area_empty_invalid_boundary_error.1 demoFeatures ⟨3, 3, 3, 9⟩ [] (by decide)⟩,
    c5_zero_area_empty_invalid_boundary_error.2 demoFeatures⟩

/-- Stripping both ends of a character list only removes characters. -/
theorem mem_of_mem_strip (l : List Char) (c : Char)
    (hc : c ∈ ((l.dropWhile isStripChar).reverse.dropWhile isStripChar).reverse) :
    c ∈ l := by
  rw [List.mem_reverse] at hc
  have h2 := (List.dropWhile_sublist isStripChar).mem hc
  rw [List.mem_reverse] at h2
  exact (List.dropWhile_sublist isStripChar).mem h2

/-- Every character of a sanitized filename is filesystem-safe. -/
theorem secure_filename_chars_safe (name : String) :
    ∀ c ∈ (secure_filename name).data, isSafeChar c = true := by
  intro c hc
  have hc2 : c ∈ (joinedName name).filter isSafeChar :=
    mem_of_mem_strip ((joinedName name).filter isSafeChar) c hc
  exact (List.mem_filter.mp hc2).2

/-- C7: whenever `row_func` triggers a download, the shapefile path it passes
to the persistence collaborator is the download folder joined with the
sanitized layer name plus the `.shp` extension; the sanitized name holds only
filesystem-safe characters and cannot make the joined segment absolute. -/
theorem c7_sanitized_shapefile_path (il : PyIdList) (folder base : String)
    (row : LayerRow) (act : DownloadAction)
    (h : row_func il folder base row = some act) :
    act.path = os_path_join folder (secure_filename row.name ++ ".shp") ∧
      (∀ c ∈ (secure_filename row.name).data, isSafeChar c = true) ∧
      (secure_filename row.name ++ ".shp").data.head? ≠ some '/' := by
  refine ⟨?_, secure_filename_chars_safe row.name, ?_⟩
  · cases il with
    | pylist l =>
      simp only [row_func] at h
      by_cases hm : row.id ∈ l
      · rw [if_pos hm] at h
        cases h
        rfl
      · rw [if_neg hm] at h
        exact Option.noConfusion h
    | pynone =>
      simp only [row_func] at h
      cases h
      rfl
    | pyother =>
      simp only [row_func] at h
      cases h
      rfl
  · have hsafe := secure_filename_chars_safe row.name
    rcases hval : (secure_filename row.name).data with - | ⟨c0, cs⟩
    · rw [String.data_append, hval]
      decide
    · rw [String.data_append, hval]
      simp only [List.cons_append, List.head?_cons, ne_eq, Option.some.injEq]
      intro hcon
      subst hcon
      have hmem0 : ('/' : Char) ∈ (secure_filename row.name).data := by
        rw [hval]
        exact List.mem_cons_self _ _
      have := hsafe '/' hmem0
      exact absurd this (by decide)

/-- Witness for C7: a layer named with a space is sanitized to an underscore
and persisted under the joined path. -/
theorem c7_sanitized_shapefile_path_witness :
    row_func .pynone ("dl") ("http://x") ⟨"Levee Areas", 4⟩ =
        some ⟨"http://x/4/", "dl/Levee_Areas.shp"⟩ ∧
      (DownloadAction.path ⟨"http://x/4/", "dl/Levee_Areas.shp"⟩ =
          os_path_join ("dl") (secure_filename ("Levee Areas") ++ ".shp") ∧
        (∀ c ∈ (secure_filename ("Levee Areas")).data, isSafeChar c = true) ∧
        (secure_filename ("Levee Areas") ++ ".shp").data.head? ≠ some '/') :=
  ⟨by decide,
    c7_sanitized_shapefile_path .pynone ("dl") ("http://x") ⟨"Levee Areas", 4⟩
      ⟨"http://x/4/", "dl/Levee_Areas.shp"⟩ (by decide)⟩

/-- C9: the persistence steps of `featurelayer2shapefile_ogr` delete any
existing shapefile before creating the new data source, so after the call the
path holds exactly the fetched collection whatever was there before, and no
other path is affected. -/
theorem c9_overwrite_regardless_of_prior_state (fs : FileSys) (path : String)
    (fetched : List GeoFeature) :
    featurelayer2shapefile fs path fetched path = some fetched ∧
      ∀ q : String, q ≠ path → featurelayer2shapefile fs path fetched q = fs q := by
  constructor
  · simp [featurelayer2shapefile, createAndCopy, fsUpdate]
  · intro q hq
    simp only [featurelayer2shapefile, createAndCopy, fsUpdate, deleteIfExists]
    rw [if_neg hq]
    by_cases hex : (fs path).isSome = true
    · simp only [if_pos hex, fsUpdate, if_neg hq]
    · simp only [if_neg hex]

/-- Witness for C9: writing over the stale demo filesystem stores exactly the
new collection at the target and leaves another path untouched. -/
theorem c9_overwrite_regardless_of_prior_state_witness :
    featurelayer2shapefile demoFS ("old.shp") [demoInside] ("old.shp") =
        some [demoInside] ∧
      featurelayer2shapefile demoFS ("old.shp") [demoInside] ("other.shp") =
        demoFS ("other.shp") :=
  ⟨(c9_overwrite_regardless_of_prior_state demoFS ("old.shp") [demoInside]).1,
    (c9_overwrite_regardless_of_prior_state demoFS ("old.shp") [demoInside]).2
      ("other.shp") (by decide)⟩

/-- C10: the allow-list guard of `row_func`: when `id_list` is a list and the
row's id is not in it the row is skipped with no download; when the id is in
the list the layer is downloaded; when `id_list` is `None` or not a list at
all, every layer is downloaded. -/
theorem c10_allow_list_guard (folder base : String) (row : LayerRow) :
    (∀ l : List Int, row.id ∉ l →
        row_func (.pylist l) folder base row = none) ∧
      (∀ l : List Int, row.id ∈ l →
        row_func (.pylist l) folder base row =
          some ⟨featurelayer_url_of base row.id, shp_path_of folder row.name⟩) ∧
      row_func .pynone folder base row =
        some ⟨featurelayer_url_of base row.id, shp_path_of folder row.name⟩ ∧
      row_func .pyother folder base row =
        some ⟨featurelayer_url_of base row.id, shp_path_of folder row.name⟩ := by
  refine ⟨?_, ?_, rfl, rfl⟩
  · intro l hl
    simp only [row_func]
    rw [if_neg hl]
  · intro l hl
    simp only [row_func]
    rw [if_pos hl]

/-- Witness for C10: layer id 4 is skipped under allow-list `[1, 2]`,
downloaded under `[4]`, and downloaded when `id_list` is `None`. -/
theorem c10_allow_list_guard_witness :
    ((4 : Int) ∉ ([1, 2] : List Int) ∧
      row_func (.pylist [1, 2]) ("dl") ("b") ⟨"x", 4⟩ = none) ∧
      ((4 : Int) ∈ ([4] : List Int) ∧
        row_func (.pylist [4]) ("dl") ("b") ⟨"x", 4⟩ =
          some ⟨featurelayer_url_of ("b") 4, shp_path_of ("dl") ("x")⟩) ∧
      row_func .pynone ("dl") ("b") ⟨"x", 4⟩ =
        some ⟨featurelayer_url_of ("b") 4, shp_path_of ("dl") ("x")⟩ :=
  ⟨⟨by decide, (c10_allow_list_guard ("dl") ("b") ⟨"x", 4⟩).1 [1, 2] (by decide)⟩,
    ⟨by decide, (c10_allow_list_guard ("dl") ("b") ⟨"x", 4⟩).2.1 [4] (by decide)⟩,
    (c10_allow_list_guard ("dl") ("b") ⟨"x", 4⟩).2.2.1⟩

/-- `dropWhile` skips a leading block whose characters all satisfy the
predicate. -/
theorem dropWhile_append_all (p : Char → Bool) (a b : List Char)
    (h : ∀ c ∈ a, p c = true) : (a ++ b).dropWhile p = b.dropWhile p := by
  induction a with
  | nil => rfl
  | cons x xs ih =>
    simp only [List.cons_append, List.dropWhile_cons]
    rw [if_pos (h x (List.mem_cons_self x xs)),
      ih fun c hc => h c (List.mem_cons_of_mem x hc)]

/-- C8: every query `featurelayer2shapefile_ogr` issues carries exactly the
parameters `where=1+%3D+1` (an always-true clause: it decodes to the
tautological equality `1 = 1`), `outfields=*` (all attribute fields),
`f=json`, `resultRecordCount=1000` (at most 1000 records per page, a constant
of the function rather than a caller-supplied value) and
`orderByFields=OBJECTID+ASC` (ascending OBJECTID order). -/
theorem c8_fixed_query_parameters (u : String) (hu : '?' ∉ u.data) :
    queryParams (query_url u) =
      [(("where").data, ("1+%3D+1").data),
       (("outfields").data, ("*").data),
       (("f").data, ("json").data),
       (("resultRecordCount").data, ("1000").data),
       (("orderByFields").data, ("OBJECTID+ASC").data)] ∧
      decodeQuery (("1+%3D+1").data) = ("1 = 1").data ∧
      isTautologyEq (decodeQuery (("1+%3D+1").data)) = true ∧
      decodeQuery (("OBJECTID+ASC").data) = ("OBJECTID ASC").data := by
  refine ⟨?_, by decide, by decide, by decide⟩
  have hall : ∀ c ∈ u.data, (c != '?') = true := by
    intro c hc
    simp only [bne_iff_ne, ne_eq]
    intro heq
    exact hu (heq ▸ hc)
  simp only [queryParams, query_url, String.data_append]
  rw [dropWhile_append_all _ _ _ hall]
  decide

/-- Witness for C8: the query URL for a concrete layer endpoint (which holds
no `?` itself) carries exactly the five fixed parameters. -/
theorem c8_fixed_query_parameters_witness :
    '?' ∉ ("http://ex/0").data ∧
      (queryParams (query_url ("http://ex/0")) =
        [(("where").data, ("1+%3D+1").data),
         (("outfields").data, ("*").data),
         (("f").data, ("json").data),
         (("resultRecordCount").data, ("1000").data),
         (("orderByFields").data, ("OBJECTID+ASC").data)] ∧
        decodeQuery (("1+%3D+1").data) = ("1 = 1").data ∧
        isTautologyEq (decodeQuery (("1+%3D+1").data)) = true ∧
        decodeQuery (("OBJECTID+ASC").data) = ("OBJECTID ASC").data) :=
  ⟨by decide, c8_fixed_query_parameters ("http://ex/0") (by decide)⟩

/-- With a static never-failing remote, the paged loop started at any offset
returns the remainder of the collection, given positive page size and enough
fuel. -/
theorem fetchGo_static {α : Type} (coll : List α) (ps : Nat) (hps : 0 < ps) :
    ∀ fuel off, coll.length - off < fuel →
      fetchGo (staticRemote coll ps) ps fuel off = some (.ok (coll.drop off)) := by
  intro fuel
  induction fuel with
  | zero =>
    intro off h
    exact absurd h (by omega)
  | succ fuel ih =>
    intro off h
    simp only [fetchGo, staticRemote]
    by_cases hshort : ((coll.drop off).take ps).length < ps
    · rw [if_pos hshort]
      have hlen : (coll.drop off).length < ps := by
        rw [List.length_take] at hshort
        omega
      rw [List.take_of_length_le (le_of_lt hlen)]
    · rw [if_neg hshort]
      have hlen : ps ≤ (coll.drop off).length := by
        rw [List.length_take] at hshort
        omega
      have hdlen : (coll.drop off).length = coll.length - off := List.length_drop off coll
      have hrec := ih (off + ps) (by omega)
      rw [hrec]
      have hsplit : coll.drop (off + ps) = (coll.drop off).drop ps :=
        (List.drop_drop ps off coll).symm
      rw [hsplit]
      show some (Except.ok
          (List.take ps (List.drop off coll) ++ List.drop ps (List.drop off coll))) =
        some (Except.ok (List.drop off coll))
      rw [List.take_append_drop]

/-- C1: for every positive page size, fetching a static remote collection of
size `k` whose identifiers are strictly ascending yields exactly the `k`
records, each exactly once, in ascending identifier order, regardless of the
page size. -/
theorem c1_paged_fetch_complete {α : Type} (ps : Nat) (coll : List α)
    (idOf : α → Nat) (hps : 0 < ps)
    (hsorted : coll.Pairwise fun a b => idOf a < idOf b) :
    ∃ res, fetch_all ps coll = some (.ok res) ∧ res = coll ∧
      res.length = coll.length ∧ res.Nodup ∧
      res.Pairwise fun a b => idOf a < idOf b := by
  refine ⟨coll, ?_, rfl, rfl, ?_, hsorted⟩
  · have hrun := fetchGo_static coll ps hps (coll.length + 1) 0 (by omega)
    rw [List.drop_zero] at hrun
    exact hrun
  · exact hsorted.imp fun hab heq => absurd (heq ▸ hab) (lt_irrefl _)

/-- Witness for C1: the five demo records are fetched completely with page
size 2 (pages of 2, 2 and 1). -/
theorem c1_paged_fetch_complete_witness :
    0 < 2 ∧ (demoRecs.Pairwise fun a b => a.fid < b.fid) ∧
      ∃ res, fetch_all 2 demoRecs = some (.ok res) ∧ res = demoRecs ∧
        res.length = demoRecs.length ∧ res.Nodup ∧
        res.Pairwise fun a b => a.fid < b.fid :=
  ⟨by decide, by decide,
    c1_paged_fetch_complete 2 demoRecs GeoFeature.fid (by decide) (by decide)⟩

/-- C6: a network failure on the page at the current offset fails the whole
fetch with `fetchError` carrying exactly that offset; a malformed page fails
it with `parseError`; and a successful fetch from an offset always includes
the page served at that offset — no failed or fetched page is silently
skipped. -/
theorem c6_page_failure_propagation {α : Type}
    (remote : Nat → Except PageErr (List α)) (ps fuel off : Nat) :
    (remote off = .error .netFail →
        fetchGo remote ps (fuel + 1) off = some (.error (.fetchError off))) ∧
      (remote off = .error .malformed →
        fetchGo remote ps (fuel + 1) off = some (.error .parseError)) ∧
      ∀ res, fetchGo remote ps (fuel + 1) off = some (.ok res) →
        ∃ page rest, remote off = .ok page ∧ res = page ++ rest := by
  refine ⟨?_, ?_, ?_⟩
  · intro h
    simp only [fetchGo, h]
  · intro h
    simp only [fetchGo, h]
  · intro res hres
    cases hrem : remote off with
    | error e =>
      simp only [fetchGo, hrem] at hres
      cases e <;> simp at hres
    | ok page =>
      simp only [fetchGo, hrem] at hres
      by_cases hshort : page.length < ps
      · rw [if_pos hshort] at hres
        simp only [Option.some.injEq, Except.ok.injEq] at hres
        exact ⟨page, [], rfl, by rw [List.append_nil, hres]⟩
      · rw [if_neg hshort] at hres
        cases hrec : fetchGo remote ps fuel (off + ps) with
        | none =>
          rw [hrec] at hres
          simp at hres
        | some r =>
          cases r with
          | error e =>
            rw [hrec] at hres
            simp at hres
          | ok rest =>
            rw [hrec] at hres
            simp only [Option.some.injEq, Except.ok.injEq] at hres
            exact ⟨page, rest, rfl, hres.symm⟩

/-- Witness for C6: on the demo endpoint the fetch at offset 2 fails with the
offset-carrying network error, at offset 3 with the parse error, and the
successful short fetch at offset 0 contains its served page. -/
theorem c6_page_failure_propagation_witness :
    (demoRemote 2 = .error .netFail ∧
        fetchGo demoRemote 2 1 2 = some (.error (.fetchError 2))) ∧
      (demoRemote 3 = .error .malformed ∧
        fetchGo demoRemote 2 1 3 = some (.error .parseError)) ∧
      (fetchGo demoRemoteOk 2 1 0 = some (.ok [7]) ∧
        ∃ page rest, demoRemoteOk 0 = .ok page ∧ [7] = page ++ rest) :=
  ⟨⟨rfl, (c6_page_failure_propagation demoRemote 2 0 2).1 rfl⟩,
    ⟨rfl, (c6_page_failure_propagation demoRemote 2 0 3).2.1 rfl⟩,
    ⟨rfl, (c6_page_failure_propagation demoRemoteOk 2 0 0).2.2 [7] rfl⟩⟩

end NLD
